import Mathlib

/-!
Shallow embedding of the `how-to-create-bgp` BGP-4 speaker.

Pure data and functions are translated from the Rust source under `src/`:
`routing.rs`, `event_queue.rs`, `peer.rs`, `packets/message.rs`,
`packets/keepalive.rs`, `autonomous_system_number.rs`.

Some modules referenced by those files (`path_attribute.rs`, `header.rs`,
`open.rs`, `update.rs`, `config.rs`, `event.rs`, `state.rs`,
`connection.rs`) are not part of the source tree; where a definition from
such a module is needed it is modelled from the specification and marked
`Modelled from the spec:` in its doc comment.

Rust bytes (`u8`) are embedded as `Nat`, byte buffers (`BytesMut`) as
`List Nat`, and fallible conversions (`TryFrom`) as `Except`.  A Rust
`panic!` or `.unwrap()` failure is embedded as `Option`/`none`.
-/

namespace BGP

/-- From `autonomous_system_number.rs`: a newtype over `u16`. -/
structure AutonomousSystemNumber where
  val : Nat
deriving DecidableEq

/-- An IPv4 address as its four octets (embeds `std::net::Ipv4Addr`). -/
structure Ipv4Addr where
  o0 : Nat
  o1 : Nat
  o2 : Nat
  o3 : Nat
deriving DecidableEq

/-- The four octets of an address, most significant first
(embeds `Ipv4Addr::octets`, network byte order). -/
def Ipv4Addr.octets (a : Ipv4Addr) : List Nat :=
  [a.o0, a.o1, a.o2, a.o3]

/-- Modelled from the spec: `path_attribute.rs` is not in the source tree.
`Origin(IGP|EGP|INCOMPLETE)`. -/
inductive Origin where
  | Igp
  | Egp
  | Incomplete
deriving DecidableEq

/-- Modelled from the spec: `path_attribute.rs` is not in the source tree.
`AsPath(AS_SEQUENCE(list<ASN>) | AS_SET(list<ASN>))`. -/
inductive AsPath where
  | AsSequence (asns : List AutonomousSystemNumber)
  | AsSet (asns : List AutonomousSystemNumber)
deriving DecidableEq

/-- Modelled from the spec: `path_attribute.rs` is not in the source tree.
The spec says `append_as_path` "prepends `local_as` to every AS_SEQUENCE
segment found in path attributes"; `AsPath::add` therefore prepends to an
`AS_SEQUENCE` and is silent on `AS_SET`, which is left unchanged. -/
def AsPath.add (p : AsPath) (asn : AutonomousSystemNumber) : AsPath :=
  match p with
  | .AsSequence asns => .AsSequence (asn :: asns)
  | .AsSet asns => .AsSet asns

/-- Modelled from the spec: `path_attribute.rs` is not in the source tree.
The three variants used are Origin, AsPath and NextHop. -/
inductive PathAttribute where
  | Origin (o : Origin)
  | AsPath (p : AsPath)
  | NextHop (ip : Ipv4Addr)
deriving DecidableEq

/-- From `routing.rs`: `Ipv4Network` wraps `ipnetwork::Ipv4Network`, a pair
of a prefix address and a prefix length 0..=32.  The source field is named
`prefix`, which Lean reserves, hence `pfxLen` here. -/
structure Ipv4Network where
  addr : Ipv4Addr
  pfxLen : Nat
deriving DecidableEq

/-- Keep the top `keep` bits of one octet, zeroing the rest (`keep ≤ 8`). -/
def maskOctet (x keep : Nat) : Nat :=
  x / 2 ^ (8 - keep) * 2 ^ (8 - keep)

/-- Embeds `ipnetwork::Ipv4Network::network()` (external crate): the
canonical network address, i.e. the prefix address with host bits zeroed. -/
def Ipv4Network.network (nw : Ipv4Network) : Ipv4Addr :=
  ⟨maskOctet nw.addr.o0 (min 8 nw.pfxLen),
   maskOctet nw.addr.o1 (min 8 (nw.pfxLen - 8)),
   maskOctet nw.addr.o2 (min 8 (nw.pfxLen - 16)),
   maskOctet nw.addr.o3 (min 8 (nw.pfxLen - 24))⟩

/-- From `routing.rs`, `impl From<&Ipv4Network> for BytesMut`: one byte of
prefix length, then the match on `prefix` selecting 0..4 leading octets of
`network().octets()`; the `_` arm panics, embedded as `none`. -/
def Ipv4Network.toBytes (nw : Ipv4Network) : Option (List Nat) :=
  let n := (Ipv4Network.network nw).octets
  let networkBytes : Option (List Nat) :=
    if nw.pfxLen = 0 then some []
    else if nw.pfxLen < 9 then some (n.take 1)
    else if nw.pfxLen < 17 then some (n.take 2)
    else if nw.pfxLen < 25 then some (n.take 3)
    else if nw.pfxLen < 33 then some (n.take 4)
    else none
  networkBytes.map (fun nb => nw.pfxLen :: nb)

/-- From `routing.rs`, `Ipv4Network::bytes_len`: the match on `prefix`
(`0..9 => 2`, `9..17 => 3`, `17..25 => 4`, `25..33 => 5`, `_ => panic`). -/
def Ipv4Network.bytes_len (nw : Ipv4Network) : Option Nat :=
  if nw.pfxLen < 9 then some 2
  else if nw.pfxLen < 17 then some 3
  else if nw.pfxLen < 25 then some 4
  else if nw.pfxLen < 33 then some 5
  else none

/-- From `routing.rs`: `RibEntry { network_address, path_attributes }`. -/
structure RibEntry where
  network_address : Ipv4Network
  path_attributes : List PathAttribute
deriving DecidableEq

/-- From `routing.rs`, `RibEntry::append_as_path`: for every path attribute
that is an `AsPath`, call `AsPath::add` on it. -/
def RibEntry.append_as_path (e : RibEntry) (as_number : AutonomousSystemNumber) : RibEntry :=
  { e with
    path_attributes := e.path_attributes.map (fun pa =>
      match pa with
      | .AsPath as_path => .AsPath (as_path.add as_number)
      | other => other) }

/-- From `routing.rs`, `RibEntry::change_next_hop`: for every path attribute
that is a `NextHop`, overwrite its address. -/
def RibEntry.change_next_hop (e : RibEntry) (next_hop : Ipv4Addr) : RibEntry :=
  { e with
    path_attributes := e.path_attributes.map (fun pa =>
      match pa with
      | .NextHop _ => .NextHop next_hop
      | other => other) }

/-- From `routing.rs`: `LocRib(Vec<RibEntry>)`. -/
structure LocRib where
  entries : List RibEntry
deriving DecidableEq

/-- From `routing.rs`: `AdjRibOut(pub Vec<RibEntry>)`. -/
structure AdjRibOut where
  entries : List RibEntry
deriving DecidableEq

/-- From `routing.rs`, `AdjRibOut::new`. -/
def AdjRibOut.new : AdjRibOut := ⟨[]⟩

/-- Modelled from the spec: `config.rs` is not in the source tree.
`PeerConfig { local_as, local_ip, remote_as, remote_ip, mode, networks }`. -/
inductive Mode where
  | Active
  | Passive
deriving DecidableEq

/-- Modelled from the spec: `config.rs` is not in the source tree. -/
structure Config where
  local_as : AutonomousSystemNumber
  local_ip : Ipv4Addr
  remote_as : AutonomousSystemNumber
  remote_ip : Ipv4Addr
  mode : Mode
  networks : List Ipv4Network
deriving DecidableEq

/-- From `routing.rs`, `AdjRibOut::install_from_loc_rib`: for each entry of
the Loc-RIB, clone it, `append_as_path(local_as)`, `change_next_hop(local_ip)`
and push it onto the existing vector. -/
def AdjRibOut.install_from_loc_rib (a : AdjRibOut) (loc_rib : LocRib) (config : Config) :
    AdjRibOut :=
  loc_rib.entries.foldl
    (fun acc r =>
      ⟨acc.entries ++ [(r.append_as_path config.local_as).change_next_hop config.local_ip]⟩)
    a

/-- Decode-error taxonomy.  The source wraps `anyhow` messages in
`ConvertBytesToBgpMessageError`; the spec types the errors as
TooShort, BadMarker, UnknownType, LengthMismatch, MalformedAttribute,
MalformedNlri; `typeMismatch` is the error path of
`KeepaliveMessage::try_from` when the header type is not Keepalive. -/
inductive ConvertBytesToBgpMessageError where
  | tooShort
  | badMarker
  | unknownType
  | lengthMismatch
  | malformedAttribute
  | malformedNlri
  | typeMismatch
deriving DecidableEq

/-- Modelled from the spec: `header.rs` is not in the source tree.
Message types with codes 1=Open, 2=Update, 4=Keepalive. -/
inductive MessageType where
  | Open
  | Update
  | Keepalive
deriving DecidableEq

/-- Wire code of a message type (1=Open, 2=Update, 4=Keepalive). -/
def MessageType.toByte (t : MessageType) : Nat :=
  match t with
  | .Open => 1
  | .Update => 2
  | .Keepalive => 4

/-- Modelled from the spec: type bytes outside 1, 2, 4 are rejected. -/
def MessageType.fromByte (b : Nat) : Option MessageType :=
  if b = 1 then some .Open
  else if b = 2 then some .Update
  else if b = 4 then some .Keepalive
  else none

/-- Modelled from the spec: `header.rs` is not in the source tree.
All messages share a 19-byte header: 16 bytes of 0xFF marker, 2 bytes total
length (includes the header), 1 byte type. -/
structure Header where
  length : Nat
  type_ : MessageType
deriving DecidableEq

/-- Modelled from the spec: `Header::new(length, type)`. -/
def Header.new (length : Nat) (t : MessageType) : Header :=
  ⟨length, t⟩

/-- Modelled from the spec: header encoding is 16 marker bytes of 0xFF, the
total length big-endian on 2 bytes, and the type byte. -/
def Header.toBytes (h : Header) : List Nat :=
  List.replicate 16 0xFF ++ [h.length / 256 % 256, h.length % 256, h.type_.toByte]

/-- Modelled from the spec: `header.rs` is not in the source tree.  Header
decoding rejects buffers shorter than 19 bytes, a marker that is not 16
bytes of 0xFF, and a type byte outside 1, 2, 4. -/
def Header.tryFrom (bytes : List Nat) : Except ConvertBytesToBgpMessageError Header :=
  if bytes.length < 19 then .error .tooShort
  else if bytes.take 16 ≠ List.replicate 16 0xFF then .error .badMarker
  else
    match MessageType.fromByte (bytes.getD 18 0) with
    | none => .error .unknownType
    | some t => .ok ⟨(bytes.getD 16 0) * 256 + bytes.getD 17 0, t⟩

/-- From `packets/keepalive.rs`: `KeepaliveMessage { header }`. -/
structure KeepaliveMessage where
  header : Header
deriving DecidableEq

/-- From `packets/keepalive.rs`, `KeepaliveMessage::new`:
`Header::new(19, MessageType::Keepalive)`. -/
def KeepaliveMessage.new : KeepaliveMessage :=
  ⟨Header.new 19 MessageType.Keepalive⟩

/-- From `packets/keepalive.rs`, `impl TryFrom<BytesMut> for KeepaliveMessage`:
decode the header from the bytes; error if its type is not Keepalive. -/
def KeepaliveMessage.tryFrom (bytes : List Nat) :
    Except ConvertBytesToBgpMessageError KeepaliveMessage :=
  match Header.tryFrom bytes with
  | .error e => .error e
  | .ok header =>
    if header.type_ ≠ MessageType.Keepalive then .error .typeMismatch
    else .ok ⟨header⟩

/-- From `packets/keepalive.rs`, `impl From<KeepaliveMessage> for BytesMut`:
a keepalive is header-only. -/
def KeepaliveMessage.toBytes (k : KeepaliveMessage) : List Nat :=
  k.header.toBytes

/-- Modelled from the spec: `open.rs` is not in the source tree.  Open body
after the header: 1 byte version=4, 2 bytes my-AS, 2 bytes hold-time,
4 bytes BGP identifier, 1 byte opt-parm-length=0; total length 29. -/
structure OpenMessage where
  header : Header
  version : Nat
  my_as : AutonomousSystemNumber
  hold_time : Nat
  bgp_identifier : Ipv4Addr
  opt_parm_length : Nat
deriving DecidableEq

/-- Modelled from the spec: `OpenMessage::new(my_as, my_ip)` builds
`Open(my_as, my_ip)` with hold-time 0 and no optional parameters. -/
def OpenMessage.new (my_as : AutonomousSystemNumber) (my_ip : Ipv4Addr) : OpenMessage :=
  ⟨Header.new 29 MessageType.Open, 4, my_as, 0, my_ip, 0⟩

/-- Modelled from the spec: Open encoding is the header followed by the
version, the 2-byte AS, the 2-byte hold time, the 4-byte identifier and the
optional-parameter length. -/
def OpenMessage.toBytes (o : OpenMessage) : List Nat :=
  o.header.toBytes ++
    [o.version % 256, o.my_as.val / 256 % 256, o.my_as.val % 256,
     o.hold_time / 256 % 256, o.hold_time % 256] ++
    o.bgp_identifier.octets ++ [o.opt_parm_length % 256]

/-- Modelled from the spec: `open.rs` is not in the source tree.  Open
decoding reads the header, requires type Open and a 29-byte body, and
parses the fields; remote Open contents are accepted without validation. -/
def OpenMessage.tryFrom (bytes : List Nat) :
    Except ConvertBytesToBgpMessageError OpenMessage :=
  match Header.tryFrom bytes with
  | .error e => .error e
  | .ok header =>
    if header.type_ ≠ MessageType.Open then .error .typeMismatch
    else if bytes.length < 29 then .error .tooShort
    else
      .ok ⟨header, bytes.getD 19 0,
           ⟨(bytes.getD 20 0) * 256 + bytes.getD 21 0⟩,
           (bytes.getD 22 0) * 256 + bytes.getD 23 0,
           ⟨bytes.getD 24 0, bytes.getD 25 0, bytes.getD 26 0, bytes.getD 27 0⟩,
           bytes.getD 28 0⟩

/-- Modelled from the spec: `update.rs` is not in the source tree.
Update body: withdrawn routes, path attributes, NLRIs. -/
structure UpdateMessage where
  header : Header
  withdrawn_routes : List Ipv4Network
  path_attributes : List PathAttribute
  nlri : List Ipv4Network
deriving DecidableEq

/-- Modelled from the spec: wire encoding of one path attribute,
`flags(1) | type(1) | length(1) | value`; all three used attributes are
well-known transitive (flags 0x40) with a 1-byte length. -/
def PathAttribute.toBytes (pa : PathAttribute) : List Nat :=
  match pa with
  | .Origin o =>
    let v := match o with | .Igp => 0 | .Egp => 1 | .Incomplete => 2
    [0x40, 1, 1, v]
  | .AsPath p =>
    let (segType, asns) := match p with
      | .AsSequence asns => (2, asns)
      | .AsSet asns => (1, asns)
    let asnBytes := asns.flatMap (fun a => [a.val / 256 % 256, a.val % 256])
    [0x40, 2, (2 + asnBytes.length) % 256, segType, asns.length % 256] ++ asnBytes
  | .NextHop ip => [0x40, 3, 4] ++ ip.octets

/-- Modelled from the spec: parse a run of NLRIs, each one prefix-length
byte followed by `ceil(len/8)` address bytes; missing bytes or a length
beyond 32 are `MalformedNlri`.  The first argument is fuel. -/
def parseNlris : Nat → List Nat → Except ConvertBytesToBgpMessageError (List Ipv4Network)
  | _, [] => .ok []
  | 0, _ => .error .malformedNlri
  | fuel + 1, l :: rest =>
    let n := (l + 7) / 8
    if l ≤ 32 ∧ n ≤ rest.length then
      match parseNlris fuel (rest.drop n) with
      | .error e => .error e
      | .ok tail =>
        let b := rest.take n ++ List.replicate (4 - n) 0
        .ok (⟨⟨b.getD 0 0, b.getD 1 0, b.getD 2 0, b.getD 3 0⟩, l⟩ :: tail)
    else .error .malformedNlri

/-- Modelled from the spec: parse `count` 2-byte ASNs. -/
def parseAsns : Nat → List Nat → Option (List AutonomousSystemNumber)
  | 0, _ => some []
  | count + 1, b0 :: b1 :: rest =>
    (parseAsns count rest).map (fun t => ⟨b0 * 256 + b1⟩ :: t)
  | _ + 1, _ => none

/-- Modelled from the spec: decode one path attribute value given its type
code (1=Origin, 2=AsPath, 3=NextHop); anything else is malformed. -/
def parseAttributeValue (typeCode : Nat) (value : List Nat) :
    Except ConvertBytesToBgpMessageError PathAttribute :=
  if typeCode = 1 then
    match value with
    | [0] => .ok (.Origin .Igp)
    | [1] => .ok (.Origin .Egp)
    | [2] => .ok (.Origin .Incomplete)
    | _ => .error .malformedAttribute
  else if typeCode = 2 then
    match value with
    | segType :: count :: rest =>
      if rest.length = 2 * count then
        match parseAsns count rest with
        | none => .error .malformedAttribute
        | some asns =>
          if segType = 1 then .ok (.AsPath (.AsSet asns))
          else if segType = 2 then .ok (.AsPath (.AsSequence asns))
          else .error .malformedAttribute
      else .error .malformedAttribute
    | _ => .error .malformedAttribute
  else if typeCode = 3 then
    match value with
    | [a, b, c, d] => .ok (.NextHop ⟨a, b, c, d⟩)
    | _ => .error .malformedAttribute
  else .error .malformedAttribute

/-- Modelled from the spec: parse a run of path attributes, each
`flags(1) | type(1) | length(1 or 2 per the Extended-Length flag) | value`.
The first argument is fuel. -/
def parseAttributes :
    Nat → List Nat → Except ConvertBytesToBgpMessageError (List PathAttribute)
  | _, [] => .ok []
  | 0, _ => .error .malformedAttribute
  | fuel + 1, flags :: typeCode :: rest =>
    let extended := flags / 16 % 2 = 1
    let lenAndBody : Option (Nat × List Nat) :=
      if extended then
        match rest with
        | hi :: lo :: body => some (hi * 256 + lo, body)
        | _ => none
      else
        match rest with
        | len :: body => some (len, body)
        | _ => none
    match lenAndBody with
    | none => .error .malformedAttribute
    | some (len, body) =>
      if len ≤ body.length then
        match parseAttributeValue typeCode (body.take len) with
        | .error e => .error e
        | .ok pa =>
          match parseAttributes fuel (body.drop len) with
          | .error e => .error e
          | .ok tail => .ok (pa :: tail)
      else .error .malformedAttribute
  | _ + 1, _ => .error .malformedAttribute

/-- Modelled from the spec: `update.rs` is not in the source tree.  Update
decoding reads the header, requires type Update, then the 2-byte withdrawn
length and withdrawn NLRIs, the 2-byte attribute length and attributes, and
takes the remainder as NLRIs. -/
def UpdateMessage.tryFrom (bytes : List Nat) :
    Except ConvertBytesToBgpMessageError UpdateMessage :=
  match Header.tryFrom bytes with
  | .error e => .error e
  | .ok header =>
    if header.type_ ≠ MessageType.Update then .error .typeMismatch
    else
      let body := bytes.drop 19
      match body with
      | wHi :: wLo :: rest =>
        let wLen := wHi * 256 + wLo
        if wLen ≤ rest.length then
          match parseNlris wLen (rest.take wLen) with
          | .error e => .error e
          | .ok withdrawn =>
            match rest.drop wLen with
            | pHi :: pLo :: rest2 =>
              let pLen := pHi * 256 + pLo
              if pLen ≤ rest2.length then
                match parseAttributes pLen (rest2.take pLen) with
                | .error e => .error e
                | .ok attrs =>
                  match parseNlris (rest2.length - pLen) (rest2.drop pLen) with
                  | .error e => .error e
                  | .ok nlris => .ok ⟨header, withdrawn, attrs, nlris⟩
              else .error .lengthMismatch
            | _ => .error .tooShort
        else .error .lengthMismatch
      | _ => .error .tooShort

/-- Modelled from the spec: total wire length of one encoded NLRI,
`1 + ceil(len/8)` with the address capped at four octets. -/
def nlriWireLen (nw : Ipv4Network) : Nat :=
  1 + min 4 ((nw.pfxLen + 7) / 8)

/-- Modelled from the spec: the body sections of an Update. -/
def UpdateMessage.bodyBytes (u : UpdateMessage) : Option (List Nat) :=
  match u.withdrawn_routes.mapM Ipv4Network.toBytes, u.nlri.mapM Ipv4Network.toBytes with
  | some wd, some nl =>
    let wdBytes := wd.flatten
    let attrBytes := (u.path_attributes.map PathAttribute.toBytes).flatten
    some ([wdBytes.length / 256 % 256, wdBytes.length % 256] ++ wdBytes ++
          [attrBytes.length / 256 % 256, attrBytes.length % 256] ++ attrBytes ++
          nl.flatten)
  | _, _ => none

/-- Modelled from the spec: Update encoding is the header (whose length
field was computed at construction) followed by the body sections. -/
def UpdateMessage.toBytes (u : UpdateMessage) : Option (List Nat) :=
  (u.bodyBytes).map (fun b => u.header.toBytes ++ b)

/-- Modelled from the spec: `update.rs` is not in the source tree.  An
Update is built from one RIB entry's path attributes and a single NLRI;
the header's total length is the exact serialized length. -/
def UpdateMessage.new (attrs : List PathAttribute) (nlris : List Ipv4Network) :
    UpdateMessage :=
  let attrBytes := (attrs.map PathAttribute.toBytes).flatten
  let nlriLen := (nlris.map nlriWireLen).sum
  ⟨Header.new (19 + 2 + 2 + attrBytes.length + nlriLen) MessageType.Update,
   [], attrs, nlris⟩

/-- Modelled from the spec: `impl From<&AdjRibOut> for Vec<UpdateMessage>`
in `update.rs` is not in the source tree.  For each RibEntry in the
Adj-RIB-Out, one Update carrying that entry's path attributes and a single
NLRI, its network address. -/
def AdjRibOut.toUpdates (a : AdjRibOut) : List UpdateMessage :=
  a.entries.map (fun e => UpdateMessage.new e.path_attributes [e.network_address])

/-- From `packets/message.rs`: the `Message` enum. -/
inductive Message where
  | Open (m : OpenMessage)
  | Keepalive (m : KeepaliveMessage)
  | Update (m : UpdateMessage)
deriving DecidableEq

/-- From `packets/message.rs`, `impl TryFrom<BytesMut> for Message`: reject
buffers shorter than 19 bytes, decode the header from the first 19 bytes,
then dispatch on the header type. -/
def Message.tryFrom (bytes : List Nat) : Except ConvertBytesToBgpMessageError Message :=
  if bytes.length < 19 then .error .tooShort
  else
    match Header.tryFrom (bytes.take 19) with
    | .error e => .error e
    | .ok header =>
      match header.type_ with
      | .Open => (OpenMessage.tryFrom bytes).map Message.Open
      | .Keepalive => (KeepaliveMessage.tryFrom bytes).map Message.Keepalive
      | .Update => (UpdateMessage.tryFrom bytes).map Message.Update

/-- From `packets/message.rs`, `impl From<Message> for BytesMut`: dispatch
to the variant's encoder (`Option` because the Ipv4Network encoder inside
Update panics on prefixes above 32). -/
def Message.toBytes (m : Message) : Option (List Nat) :=
  match m with
  | .Open o => some o.toBytes
  | .Keepalive k => some k.toBytes
  | .Update u => u.toBytes

/-- From `packets/message.rs`, `Message::new_open`. -/
def Message.new_open (my_as : AutonomousSystemNumber) (my_ip : Ipv4Addr) : Message :=
  .Open (OpenMessage.new my_as my_ip)

/-- From `packets/message.rs`, `Message::new_keepalive`. -/
def Message.new_keepalive : Message :=
  .Keepalive KeepaliveMessage.new

/-- Modelled from the spec: `event.rs` is not in the source tree.  The
tagged event type of the peer FSM. -/
inductive Event where
  | ManualStart
  | TcpConnectionConfirmed
  | BgpOpen (m : OpenMessage)
  | KeepAliveMsg (m : KeepaliveMessage)
  | UpdateMsg (m : UpdateMessage)
  | Established
  | LocRibChanged
  | AdjRibOutChanged
deriving DecidableEq

/-- From `event_queue.rs`: `EventQueue(VecDeque<Event>)`; the list is kept
front-first, so the head is the `VecDeque` front. -/
structure EventQueue where
  events : List Event
deriving DecidableEq

/-- From `event_queue.rs`, `EventQueue::new`. -/
def EventQueue.new : EventQueue := ⟨[]⟩

/-- From `event_queue.rs`, `EventQueue::enqueue`: `push_front`. -/
def EventQueue.enqueue (q : EventQueue) (event : Event) : EventQueue :=
  ⟨event :: q.events⟩

/-- Remove the last element of a list, returning it and the remainder
(embeds `VecDeque::pop_back` on a front-first list). -/
def popBack : List Event → Option (Event × List Event)
  | [] => none
  | [e] => some (e, [])
  | x :: y :: rest =>
    match popBack (y :: rest) with
    | none => none
    | some (e, l) => some (e, x :: l)

/-- From `event_queue.rs`, `EventQueue::dequeue`: `pop_back`, returned in
state-passing style together with the remaining queue. -/
def EventQueue.dequeue (q : EventQueue) : Option (Event × EventQueue) :=
  match popBack q.events with
  | none => none
  | some (e, rest) => some (e, ⟨rest⟩)

/-- Repeatedly dequeue until the queue is empty; the first argument is
fuel bounding the number of dequeues. -/
def EventQueue.drainFuel : Nat → EventQueue → List Event
  | 0, _ => []
  | fuel + 1, q =>
    match q.dequeue with
    | none => []
    | some (e, q') => e :: EventQueue.drainFuel fuel q'

/-- Dequeue every element of the queue, oldest first. -/
def EventQueue.drainAll (q : EventQueue) : List Event :=
  EventQueue.drainFuel q.events.length q

/-- Enqueue a list of events, one at a time, onto the empty queue. -/
def EventQueue.enqueueAll (es : List Event) : EventQueue :=
  es.foldl EventQueue.enqueue EventQueue.new

/-- Modelled from the spec: `state.rs` is not in the source tree.  FSM
states Idle, Connect, OpenSent, OpenConfirm, Established. -/
inductive State where
  | Idle
  | Connect
  | OpenSent
  | OpenConfirm
  | Established
deriving DecidableEq

/-- Modelled from the spec: `connection.rs` is not in the source tree.  A
connected socket, recording the messages written to it in order; `send`
serializes and writes the full buffer. -/
structure Connection where
  sent : List Message
deriving DecidableEq

/-- Modelled from the spec: `Connection::connect(config)` opens (Active) or
accepts (Passive) the TCP connection and returns the connected socket.  The
success path is modelled; on failure the peer task is fatal and has no
post-state. -/
def Connection.connect (_config : Config) : Option Connection :=
  some ⟨[]⟩

/-- Modelled from the spec: `Connection::send` writes one message. -/
def Connection.send (c : Connection) (m : Message) : Connection :=
  ⟨c.sent ++ [m]⟩

/-- From `peer.rs`: the `Peer` struct.  The shared `Arc<Mutex<LocRib>>`
handle is embedded as the Loc-RIB value, since the spec states that lock
acquisition never fails. -/
structure Peer where
  state : State
  event_queue : EventQueue
  tcp_connection : Option Connection
  config : Config
  loc_rib : LocRib
  adj_rib_out : AdjRibOut
deriving DecidableEq

/-- From `peer.rs`, `Peer::new`. -/
def Peer.new (config : Config) (loc_rib : LocRib) : Peer :=
  ⟨State.Idle, EventQueue.new, none, config, loc_rib, AdjRibOut.new⟩

/-- From `peer.rs`, `Peer::start`: enqueue `ManualStart`. -/
def Peer.start (p : Peer) : Peer :=
  { p with event_queue := p.event_queue.enqueue .ManualStart }

/-- From `peer.rs`, `Peer::handle_message`: translate an inbound message to
an event and enqueue it. -/
def Peer.handle_message (p : Peer) (message : Message) : Peer :=
  match message with
  | .Open m => { p with event_queue := p.event_queue.enqueue (.BgpOpen m) }
  | .Keepalive m => { p with event_queue := p.event_queue.enqueue (.KeepAliveMsg m) }
  | .Update m => { p with event_queue := p.event_queue.enqueue (.UpdateMsg m) }

/-- Send each message in turn over the peer's connection; `none` embeds the
`unwrap()` panic when no connection exists. -/
def Peer.sendAll (p : Peer) : List Message → Option Peer
  | [] => some p
  | m :: ms =>
    match p.tcp_connection with
    | none => none
    | some c => Peer.sendAll { p with tcp_connection := some (c.send m) } ms

/-- From `peer.rs`, `Peer::handle_event`: the transition table, dispatching
on the current state and the event; every unlisted pair falls into a
no-change `_ => ()` arm.  `none` embeds a panic (`unwrap()` on a missing
connection, or failure to establish TCP in Idle). -/
def Peer.handle_event (p : Peer) (event : Event) : Option Peer :=
  match p.state with
  | .Idle =>
    match event with
    | .ManualStart =>
      match Connection.connect p.config with
      | some conn =>
        some { p with
               tcp_connection := some conn,
               event_queue := p.event_queue.enqueue .TcpConnectionConfirmed,
               state := .Connect }
      | none => none
    | _ => some p
  | .Connect =>
    match event with
    | .TcpConnectionConfirmed =>
      match p.tcp_connection with
      | none => none
      | some c =>
        some { p with
               tcp_connection :=
                 some (c.send (Message.new_open p.config.local_as p.config.local_ip)),
               state := .OpenSent }
    | _ => some p
  | .OpenSent =>
    match event with
    | .BgpOpen _ =>
      match p.tcp_connection with
      | none => none
      | some c =>
        some { p with
               tcp_connection := some (c.send Message.new_keepalive),
               state := .OpenConfirm }
    | _ => some p
  | .OpenConfirm =>
    match event with
    | .KeepAliveMsg _ =>
      some { p with
             state := .Established,
             event_queue := p.event_queue.enqueue .Established }
    | _ => some p
  | .Established =>
    match event with
    | .Established | .LocRibChanged =>
      some { p with
             adj_rib_out := p.adj_rib_out.install_from_loc_rib p.loc_rib p.config,
             event_queue := p.event_queue.enqueue .AdjRibOutChanged }
    | .AdjRibOutChanged =>
      Peer.sendAll p (p.adj_rib_out.toUpdates.map Message.Update)
    | _ => some p

/-- From `peer.rs`, `Peer::next`: first, if the queue is non-empty, dequeue
one event and dispatch it; afterwards, if a connection exists and
`get_message` yields a message (passed in as `msgIn`, the read oracle),
translate it to an event and enqueue it. -/
def Peer.next (p : Peer) (msgIn : Option Message) : Option Peer :=
  let afterDispatch :=
    match p.event_queue.dequeue with
    | none => some p
    | some (e, q) => Peer.handle_event { p with event_queue := q } e
  match afterDispatch with
  | none => none
  | some p1 =>
    match p1.tcp_connection with
    | none => some p1
    | some _ =>
      match msgIn with
      | none => some p1
      | some m => some (p1.handle_message m)

/-- The transition table's listed (state, event) pairs; everything else is
silently ignored by `handle_event`. -/
def listedPair : State → Event → Bool
  | .Idle, .ManualStart => true
  | .Connect, .TcpConnectionConfirmed => true
  | .OpenSent, .BgpOpen _ => true
  | .OpenConfirm, .KeepAliveMsg _ => true
  | .Established, .Established => true
  | .Established, .LocRibChanged => true
  | .Established, .AdjRibOutChanged => true
  | _, _ => false

/-- The event that `Peer::handle_message` enqueues for an inbound message. -/
def messageToEvent : Message → Event
  | .Open m => .BgpOpen m
  | .Keepalive m => .KeepAliveMsg m
  | .Update m => .UpdateMsg m

/-- The per-entry transformation `install_from_loc_rib` applies: clone,
prepend the local AS to the AS path, set the next hop to the local IP. -/
def exportEntry (c : Config) (r : RibEntry) : RibEntry :=
  (r.append_as_path c.local_as).change_next_hop c.local_ip

/-- The prefix 10.100.220.0/24 from the repository's tests. -/
def net0 : Ipv4Network := ⟨⟨10, 100, 220, 0⟩, 24⟩

/-- A Loc-RIB entry as `LocRib::new` builds them: Origin IGP, empty
AS_SEQUENCE, next hop the local address. -/
def entry0 : RibEntry :=
  ⟨net0, [.Origin .Igp, .AsPath (.AsSequence []), .NextHop ⟨10, 200, 100, 3⟩]⟩

/-- A one-entry Loc-RIB. -/
def lr0 : LocRib := ⟨[entry0]⟩

/-- The configuration `64513 10.200.100.3 64512 10.200.100.2 passive
10.100.220.0/24` from the repository's tests. -/
def cfg0 : Config :=
  ⟨⟨64513⟩, ⟨10, 200, 100, 3⟩, ⟨64512⟩, ⟨10, 200, 100, 2⟩, .Passive, [net0]⟩

/-- A freshly created peer over the test configuration. -/
def peer0 : Peer := Peer.new cfg0 lr0

/-- The 19 bytes of an encoded Keepalive: marker, length 0x0013, type 4. -/
def keepaliveWire : List Nat := List.replicate 16 0xFF ++ [0x00, 0x13, 0x04]

/-- The 29 bytes of the spec's example Open message:
`Open(my_as=64512, my_ip=127.0.0.1, hold=0, id=127.0.0.1)`. -/
def openWire : List Nat :=
  List.replicate 16 0xFF ++
    [0x00, 0x1D, 0x01, 0x04, 0xFC, 0x00, 0x00, 0x00, 0x7F, 0x00, 0x00, 0x01, 0x00]

theorem install_from_loc_rib_eq (a : AdjRibOut) (lr : LocRib) (c : Config) :
    AdjRibOut.install_from_loc_rib a lr c =
      ⟨a.entries ++ lr.entries.map (exportEntry c)⟩ := by
  obtain ⟨es⟩ := lr
  induction es generalizing a with
  | nil => simp [AdjRibOut.install_from_loc_rib]
  | cons r rest ih =>
    show AdjRibOut.install_from_loc_rib ⟨a.entries ++ [exportEntry c r]⟩ ⟨rest⟩ c = _
    rw [ih]
    simp

/-- C1 counterexample: on the concrete one-entry Loc-RIB and test
configuration, installing into an empty Adj-RIB-Out twice does not give the
same contents as installing once. -/
theorem install_from_loc_rib_not_idempotent :
    AdjRibOut.install_from_loc_rib
        (AdjRibOut.install_from_loc_rib AdjRibOut.new lr0 cfg0) lr0 cfg0
      ≠ AdjRibOut.install_from_loc_rib AdjRibOut.new lr0 cfg0 := by
  decide

/-- C1 (amended): `install_from_loc_rib` appends the transformed Loc-RIB
entries to the existing Adj-RIB-Out rather than replacing them, so a second
call with the same Loc-RIB and Config yields the contents after the first
call followed by a second copy of the transformed entries. -/
theorem install_from_loc_rib_second_call_appends (a : AdjRibOut) (lr : LocRib) (c : Config) :
    AdjRibOut.install_from_loc_rib (AdjRibOut.install_from_loc_rib a lr c) lr c
      = ⟨a.entries ++ lr.entries.map (exportEntry c) ++ lr.entries.map (exportEntry c)⟩ := by
  rw [install_from_loc_rib_eq, install_from_loc_rib_eq]

/-- C2: at the failing input, a `/0` prefix, `Ipv4Network::bytes_len`
returns 2 while the claim (and the wire encoder in the same file, whose
output for `/0` is a single length byte) gives 1. -/
theorem bytes_len_slash_zero_is_two :
    Ipv4Network.bytes_len ⟨⟨0, 0, 0, 0⟩, 0⟩ = some 2
    ∧ (Ipv4Network.toBytes ⟨⟨0, 0, 0, 0⟩, 0⟩).map List.length = some 1
    ∧ Ipv4Network.bytes_len ⟨⟨0, 0, 0, 0⟩, 0⟩ ≠ some (1 + (0 + 7) / 8) := by
  refine ⟨rfl, rfl, by decide⟩

/-- C3: `install_from_loc_rib` appends, for each Loc-RIB entry, a cloned
entry with the same network address whose attributes have the local AS
prepended to every AS_SEQUENCE and the next hop set to the local IP; on an
entry with attributes Origin(IGP), AsPath(AS_SEQUENCE([])), NextHop(X) the
result is exactly Origin(IGP), AsPath(AS_SEQUENCE([local_as])),
NextHop(local_ip). -/
theorem install_from_loc_rib_transforms (lr : LocRib) (c : Config) (a : AdjRibOut) :
    (AdjRibOut.install_from_loc_rib a lr c).entries
      = a.entries ++ lr.entries.map (exportEntry c)
    ∧ (∀ r : RibEntry, (exportEntry c r).network_address = r.network_address)
    ∧ (∀ (nw : Ipv4Network) (x : Ipv4Addr),
        exportEntry c ⟨nw, [.Origin .Igp, .AsPath (.AsSequence []), .NextHop x]⟩
          = ⟨nw, [.Origin .Igp, .AsPath (.AsSequence [c.local_as]), .NextHop c.local_ip]⟩) := by
  refine ⟨?_, fun r => rfl, fun nw x => rfl⟩
  rw [install_from_loc_rib_eq]

/-- C4: for every prefix length up to 32, the wire encoding of an
`Ipv4Network` is its prefix-length byte followed by the first
`ceil(len/8)` octets of the canonical network address. -/
theorem ipv4network_toBytes_spec (nw : Ipv4Network) (h : nw.pfxLen ≤ 32) :
    Ipv4Network.toBytes nw
      = some (nw.pfxLen ::
          (Ipv4Network.network nw).octets.take ((nw.pfxLen + 7) / 8)) := by
  obtain ⟨⟨o0, o1, o2, o3⟩, l⟩ := nw
  simp only [Ipv4Network.pfxLen] at h
  interval_cases l <;>
    simp [Ipv4Network.toBytes, Ipv4Network.network, Ipv4Addr.octets, maskOctet]

/-- C4 witness: the spec's example, 10.100.220.0/24 encodes to the four
bytes 0x18 0x0A 0x64 0xDC. -/
theorem ipv4network_toBytes_spec_witness :
    net0.pfxLen ≤ 32
    ∧ Ipv4Network.toBytes net0 = some [0x18, 0x0A, 0x64, 0xDC] :=
  ⟨by decide, (ipv4network_toBytes_spec net0 (by decide)).trans (by decide)⟩

/-- C5: the first half of `next` (dequeue and dispatch) is unaffected by an
inbound message; the message is only translated to an event and enqueued in
the second half, so it can be dispatched no earlier than a later `next`. -/
theorem next_defers_inbound_message (p : Peer) (m : Message) :
    Peer.next p (some m)
      = (Peer.next p none).map (fun p1 =>
          if p1.tcp_connection.isSome then p1.handle_message m else p1)
    ∧ (∀ q : Peer, q.handle_message m
        = { q with event_queue := q.event_queue.enqueue (messageToEvent m) }) := by
  constructor
  · simp only [Peer.next]
    cases hq : p.event_queue.dequeue with
    | none =>
      cases hc : p.tcp_connection <;> simp [hc]
    | some eq =>
      obtain ⟨e, q⟩ := eq
      cases hh : Peer.handle_event { p with event_queue := q } e with
      | none => simp [hh]
      | some p1 => cases hc : p1.tcp_connection <;> simp [hh, hc]
  · intro q
    cases m <;> rfl

/-- C6: every (state, event) pair outside the transition table is silently
ignored: `handle_event` returns the peer unchanged, so the state, the
Adj-RIB-Out, the connection (hence the sent messages) and the event queue
are all untouched. -/
theorem handle_event_unlisted_noop (p : Peer) (e : Event)
    (h : listedPair p.state e = false) :
    Peer.handle_event p e = some p := by
  obtain ⟨s, q, conn, cfg, lr, aro⟩ := p
  cases s <;> cases e <;> simp_all [listedPair, Peer.handle_event]

/-- C6 witness: a freshly created peer in Idle ignores LocRibChanged. -/
theorem handle_event_unlisted_noop_witness :
    listedPair peer0.state Event.LocRibChanged = false
    ∧ Peer.handle_event peer0 Event.LocRibChanged = some peer0 :=
  ⟨by decide, handle_event_unlisted_noop peer0 Event.LocRibChanged (by decide)⟩

theorem popBack_append (xs : List Event) (x : Event) :
    popBack (xs ++ [x]) = some (x, xs) := by
  induction xs with
  | nil => rfl
  | cons y ys ih =>
    rw [List.cons_append]
    rcases hys : ys ++ [x] with _ | ⟨z, zs⟩
    · exact absurd hys (by simp)
    · rw [hys] at ih
      simp [popBack, ih]

theorem drainFuel_eq (fuel : Nat) : ∀ l : List Event, l.length ≤ fuel →
    EventQueue.drainFuel fuel ⟨l⟩ = l.reverse := by
  induction fuel with
  | zero =>
    intro l h
    rw [Nat.le_zero, List.length_eq_zero] at h
    subst h
    rfl
  | succ n ih =>
    intro l h
    rcases List.eq_nil_or_concat' l with rfl | ⟨xs, x, rfl⟩
    · rfl
    · have hx : xs.length ≤ n := by
        simp only [List.length_append, List.length_cons, List.length_nil] at h
        omega
      simp [EventQueue.drainFuel, EventQueue.dequeue, popBack_append, ih xs hx]

theorem enqueueAll_events (es : List Event) :
    (EventQueue.enqueueAll es).events = es.reverse := by
  suffices h : ∀ acc : List Event,
      (es.foldl EventQueue.enqueue ⟨acc⟩).events = es.reverse ++ acc by
    simpa using h []
  induction es with
  | nil => intro acc; rfl
  | cons e rest ih =>
    intro acc
    rw [List.foldl_cons]
    have := ih (e :: acc)
    simp only [EventQueue.enqueue] at this ⊢
    rw [this]
    simp

/-- C7: the event queue is FIFO: enqueueing any list of events one at a
time and then repeatedly dequeueing returns them in exactly the order they
were enqueued, oldest first. -/
theorem event_queue_fifo (es : List Event) :
    EventQueue.drainAll (EventQueue.enqueueAll es) = es := by
  have hq : EventQueue.enqueueAll es = ⟨es.reverse⟩ := by
    rw [← enqueueAll_events es]
  rw [EventQueue.drainAll, hq]
  have := drainFuel_eq es.reverse.length es.reverse (le_refl _)
  simpa using this

/-- C8: encoding a fresh Keepalive yields exactly the 19 bytes 0xFF
repeated 16 times, 0x00 0x13 and 0x04, and decoding those bytes yields the
same Keepalive back. -/
theorem keepalive_round_trip :
    Message.toBytes Message.new_keepalive = some keepaliveWire
    ∧ keepaliveWire.length = 19
    ∧ keepaliveWire = List.replicate 16 0xFF ++ [0x00, 0x13, 0x04]
    ∧ Message.tryFrom keepaliveWire = Except.ok Message.new_keepalive := by
  refine ⟨?_, ?_, ?_, ?_⟩ <;> rfl

/-- C9: every byte string shorter than 19 bytes is rejected by the Message
decoder with a typed error. -/
theorem message_tryFrom_too_short (bytes : List Nat) (h : bytes.length < 19) :
    Message.tryFrom bytes = Except.error ConvertBytesToBgpMessageError.tooShort := by
  simp [Message.tryFrom, h]

/-- C9 witness: the empty byte string is shorter than 19 bytes and decoding
it returns the TooShort error. -/
theorem message_tryFrom_too_short_witness :
    ([] : List Nat).length < 19
    ∧ Message.tryFrom [] = Except.error ConvertBytesToBgpMessageError.tooShort :=
  ⟨by decide, message_tryFrom_too_short [] (by decide)⟩

/-- C10: whenever the header of a byte string decodes with a message type
other than Keepalive, decoding the bytes directly as a KeepaliveMessage
returns an error, never reinterpreting the other message type. -/
theorem keepalive_tryFrom_rejects_other_types (bytes : List Nat) (hdr : Header)
    (hok : Header.tryFrom bytes = Except.ok hdr)
    (hne : hdr.type_ ≠ MessageType.Keepalive) :
    KeepaliveMessage.tryFrom bytes
      = Except.error ConvertBytesToBgpMessageError.typeMismatch := by
  simp [KeepaliveMessage.tryFrom, hok, hne]

/-- C10 witness: the spec's well-formed 29-byte Open frame decodes to a
header of type Open, and decoding it as a KeepaliveMessage errors. -/
theorem keepalive_tryFrom_rejects_other_types_witness :
    Header.tryFrom openWire = Except.ok (Header.new 29 MessageType.Open)
    ∧ (Header.new 29 MessageType.Open).type_ ≠ MessageType.Keepalive
    ∧ KeepaliveMessage.tryFrom openWire
        = Except.error ConvertBytesToBgpMessageError.typeMismatch :=
  ⟨by rfl, by decide,
   keepalive_tryFrom_rejects_other_types openWire (Header.new 29 MessageType.Open)
     (by rfl) (by decide)⟩

end BGP



